import Mathlib

/-!
A shallow embedding of `tripplite/driver.py`: the register schema
(`structure`), the register reader (`Battery._read`) and the telemetry
snapshot builder (`Battery.get`), together with theorems checking the
specification's claims about them.

The HID transport (`self.device.get_feature_report`) is modelled as an
injected oracle `raw : Nat → Nat → Nat → List Nat` taking the index of the
call (so that call-dependent behaviours such as "empty three times, then a
frame" are expressible), the register address, and the requested length.
Reports are byte lists modelled as `List Nat`.  Python exceptions are
modelled by `Except`: `IOError` (the class `Battery.get` catches) has the
two variants raised by `_read`, and the out-of-range list subscript that
CPython raises as `IndexError` is a third, distinct error value.
-/

/-- The `format` field of a register descriptor: `'b'`, `'i'` or `'f'`. -/
inductive Format where
  | b : Format
  | i : Format
  | f : Format
deriving DecidableEq, Repr

/-- One register descriptor (`options` dict in `driver.py`): `address`,
`bytes`, `format` and, for bitfields, the ordered `keys` list. -/
structure Descriptor where
  address : Nat
  bytes : Nat
  format : Format
  keys : List String
deriving DecidableEq, Repr

/-- The errors arising in `Battery._read`: the two `IOError`s it raises,
and the `IndexError` of an out-of-range list subscript (which is not an
`IOError` in Python). -/
inductive PyErr where
  | noData : PyErr
  | unexpectedData : PyErr
  | indexError : PyErr
deriving DecidableEq, Repr

/-- Whether an error is of class `IOError`, the class caught by the
`except IOError` handler in `Battery.get`.  `IndexError` is not. -/
def isIOError : PyErr → Bool
  | PyErr.noData => true
  | PyErr.unexpectedData => true
  | PyErr.indexError => false

/-- A decoded value returned by `Battery._read`: a bitfield mapping, an
integer, a float (`/ 10.0`, modelled as `Rat`), or Python's `None` for the
fall-through case where no `format` branch matches. -/
inductive Value where
  | bits : List (String × Bool) → Value
  | int : Nat → Value
  | float : Rat → Value
  | pyNone : Value
deriving DecidableEq, Repr

/-- `report[i]` with Python semantics: out of range raises `IndexError`. -/
def pyIndex (report : List Nat) (i : Nat) : Except PyErr Nat :=
  match report.get? i with
  | some v => Except.ok v
  | none => Except.error PyErr.indexError

/-- Number of binary digits of `n` (0 for `n = 0`), computed with
structural fuel so that it reduces inside the kernel; any `fuel ≥ n`
gives the exact digit count. -/
def bitLenFuel : Nat → Nat → Nat
  | 0, _ => 0
  | Nat.succ fuel, n => if n = 0 then 0 else bitLenFuel fuel (n / 2) + 1

/-- Length of the Python string `'{:08b}'.format n`: the number of binary
digits of `n`, left-padded with zeros to at least 8 (for `n = 0` Python
prints the single digit `0`, likewise padded to 8). -/
def pyBinLen (n : Nat) : Nat := max 8 (bitLenFuel n n)

/-- The reversed bit string `'{:08b}'.format(n)[::-1]` as a list of
booleans: position `i` holds bit `i` of `n` (0 = least significant). -/
def pyBits (n : Nat) : List Bool :=
  (List.range (pyBinLen n)).map n.testBit

/-- The format dispatch of `Battery._read` (driver.py lines 149-157),
applied to a validated report.  `'b'` zips the descriptor's keys with the
reversed bit string of `report[1]`; `'i'` with two bytes is
`(report[2] << 8) + report[1]`; `'i'` with one byte is `report[1]`; `'f'`
is the two-byte integer divided by `10.0`; anything else falls through to
Python's implicit `None`. -/
def decodeReport (opts : Descriptor) (report : List Nat) : Except PyErr Value :=
  if opts.format = Format.b then do
    let b1 ← pyIndex report 1
    Except.ok (Value.bits (opts.keys.zip (pyBits b1)))
  else if opts.format = Format.i ∧ opts.bytes = 2 then do
    let b2 ← pyIndex report 2
    let b1 ← pyIndex report 1
    Except.ok (Value.int ((b2 <<< 8) + b1))
  else if opts.format = Format.i ∧ opts.bytes = 1 then do
    let b1 ← pyIndex report 1
    Except.ok (Value.int b1)
  else if opts.format = Format.f then do
    let b2 ← pyIndex report 2
    let b1 ← pyIndex report 1
    Except.ok (Value.float (Rat.divInt (((b2 <<< 8) + b1 : Nat) : Int) 10))
  else Except.ok Value.pyNone

/-- Framing validation plus decoding, for a non-empty report: `_read`
raises `IOError("Received unexpected data.")` when
`options['address'] != report[0]`, otherwise decodes. -/
def handleReport (opts : Descriptor) (report : List Nat) : Except PyErr Value :=
  match report.head? with
  | some b0 =>
      if opts.address ≠ b0 then Except.error PyErr.unexpectedData
      else decodeReport opts report
  | none => Except.error PyErr.indexError

/-- `Battery._read(options, retries)`: call the transport oracle at call
index `k`; on an empty report retry while `retries > 0`, else raise
`IOError("Did not receive data.")`; on a non-empty report validate framing
and decode.  Returns the result together with the next call index, so the
number of transport calls is observable. -/
def readCore (raw : Nat → Nat → Nat → List Nat) (opts : Descriptor) :
    Nat → Nat → Except PyErr Value × Nat
  | retries, k =>
    let report := raw k opts.address (opts.bytes + 1)
    if report.isEmpty then
      match retries with
      | Nat.succ r => readCore raw opts r (k + 1)
      | 0 => (Except.error PyErr.noData, k + 1)
    else
      (handleReport opts report, k + 1)

/-- A node of the schema: a category either is a descriptor itself (the
dict has an `'address'` key) or maps subcategory names to descriptors. -/
inductive Node where
  | leaf : Descriptor → Node
  | branch : List (String × Descriptor) → Node
deriving DecidableEq, Repr

/-- A category's value in the snapshot: a single decoded value, or a
mapping of subcategory names to decoded values. -/
inductive CatValue where
  | flat : Value → CatValue
  | nested : List (String × Value) → CatValue
deriving DecidableEq, Repr

/-- Outcome of the subcategory loop inside `Battery.get`'s `try` block:
all subcategories read (`done`), an `IOError` caught by the handler after
some prefix succeeded (`caught` — the partial dict assigned so far stays
in the output), or a non-`IOError` escaping (`crashed`). -/
inductive SubResult where
  | done : List (String × Value) → Nat → SubResult
  | caught : List (String × Value) → Nat → SubResult
  | crashed : PyErr → Nat → SubResult
deriving DecidableEq, Repr

/-- The inner loop `for subcategory, options in data.items()` of
`Battery.get`: reads subcategories in order, accumulating successes; the
first `IOError` stops the loop with the partial results kept (the
exception propagates to the `except IOError` around the whole loop); a
non-`IOError` (e.g. `IndexError`) escapes. -/
def runSubs (raw : Nat → Nat → Nat → List Nat) :
    List (String × Descriptor) → Nat → SubResult
  | [], k => SubResult.done [] k
  | (name, opts) :: rest, k =>
    match readCore raw opts 3 k with
    | (Except.ok v, k1) =>
      match runSubs raw rest k1 with
      | SubResult.done vals k2 => SubResult.done ((name, v) :: vals) k2
      | SubResult.caught vals k2 => SubResult.caught ((name, v) :: vals) k2
      | SubResult.crashed e k2 => SubResult.crashed e k2
    | (Except.error e, k1) =>
      if isIOError e then SubResult.caught [] k1 else SubResult.crashed e k1

/-- The category loop of `Battery.get` (driver.py lines 118-132), from
call index `k`: a flat category is read and omitted on `IOError`; a nested
category is first assigned `{}` and then filled subcategory by
subcategory, an `IOError` anywhere in that inner loop being caught by the
same handler (the partial mapping stays); a non-`IOError` escapes the
whole call. -/
def getAux (raw : Nat → Nat → Nat → List Nat) :
    List (String × Node) → Nat → Except PyErr (List (String × CatValue) × Nat)
  | [], k => Except.ok ([], k)
  | (name, Node.leaf opts) :: rest, k =>
    match readCore raw opts 3 k with
    | (Except.ok v, k1) =>
      match getAux raw rest k1 with
      | Except.ok (tl, k2) => Except.ok ((name, CatValue.flat v) :: tl, k2)
      | Except.error e => Except.error e
    | (Except.error e, k1) =>
      if isIOError e then getAux raw rest k1 else Except.error e
  | (name, Node.branch subs) :: rest, k =>
    match runSubs raw subs k with
    | SubResult.done vals k1 =>
      match getAux raw rest k1 with
      | Except.ok (tl, k2) => Except.ok ((name, CatValue.nested vals) :: tl, k2)
      | Except.error e => Except.error e
    | SubResult.caught vals k1 =>
      match getAux raw rest k1 with
      | Except.ok (tl, k2) => Except.ok ((name, CatValue.nested vals) :: tl, k2)
      | Except.error e => Except.error e
    | SubResult.crashed e _ => Except.error e

/-- `Battery.get` starting from a given transport call index. -/
def getFrom (raw : Nat → Nat → Nat → List Nat) (schema : List (String × Node))
    (k : Nat) : Except PyErr (List (String × CatValue)) :=
  (getAux raw schema k).map Prod.fst

/-- `Battery.get()`: the snapshot of a schema under a transport oracle. -/
def get (raw : Nat → Nat → Nat → List Nat) (schema : List (String × Node)) :
    Except PyErr (List (String × CatValue)) :=
  getFrom raw schema 0

/- The concrete `structure` constant of `driver.py`. -/

def configVoltage : Descriptor := ⟨48, 1, Format.i, []⟩

def configFrequency : Descriptor := ⟨2, 1, Format.i, []⟩

def configPower : Descriptor := ⟨3, 2, Format.i, []⟩

def statusDesc : Descriptor :=
  ⟨50, 1, Format.b,
    ["shutdown imminent", "ac present", "charging", "discharging",
     "needs replacement", "below remaining capacity", "fully charged",
     "fully discharged"]⟩

def inputVoltage : Descriptor := ⟨24, 2, Format.f, []⟩

def inputFrequency : Descriptor := ⟨25, 2, Format.f, []⟩

def outputVoltage : Descriptor := ⟨27, 2, Format.f, []⟩

def outputPower : Descriptor := ⟨71, 2, Format.i, []⟩

def healthDesc : Descriptor := ⟨52, 1, Format.i, []⟩

def timeToEmpty : Descriptor := ⟨53, 2, Format.i, []⟩

/-- The `structure` dict of `driver.py` (renamed: `structure` is a Lean
keyword). -/
def structureMap : List (String × Node) :=
  [("config", Node.branch
      [("voltage", configVoltage), ("frequency", configFrequency),
       ("power", configPower)]),
   ("status", Node.leaf statusDesc),
   ("input", Node.branch
      [("voltage", inputVoltage), ("frequency", inputFrequency)]),
   ("output", Node.branch
      [("voltage", outputVoltage), ("power", outputPower)]),
   ("health", Node.leaf healthDesc),
   ("time to empty", Node.leaf timeToEmpty)]

/-- The spec's data-model invariant on descriptors: the byte count matches
the encoding (1 for bitfields and one-byte ints, 2 for the 16-bit
forms). -/
def wellFormedDesc (opts : Descriptor) : Bool :=
  (opts.format == Format.b && opts.bytes == 1)
  || (opts.format == Format.i && (opts.bytes == 1 || opts.bytes == 2))
  || (opts.format == Format.f && opts.bytes == 2)

/-- A schema node whose descriptors all satisfy the data-model
invariant. -/
def wellFormedNode : Node → Bool
  | Node.leaf opts => wellFormedDesc opts
  | Node.branch subs => subs.all (fun q => wellFormedDesc q.2)

instance {ε α : Type _} [DecidableEq ε] [DecidableEq α] : DecidableEq (Except ε α) :=
  fun x y =>
    match x, y with
    | Except.ok a, Except.ok b =>
      if h : a = b then isTrue (by rw [h])
      else isFalse (fun hc => h (Except.ok.injEq a b ▸ hc))
    | Except.ok a, Except.error e => isFalse (fun hc => Except.noConfusion hc)
    | Except.error e, Except.ok a => isFalse (fun hc => Except.noConfusion hc)
    | Except.error e, Except.error f =>
      if h : e = f then isTrue (by rw [h])
      else isFalse (fun hc => h (Except.error.injEq e f ▸ hc))

/-- A transport stub that echoes the requested address and nothing else:
every report is well-framed but one byte long. -/
def pyEchoRaw : Nat → Nat → Nat → List Nat := fun _ a _ => [a]

/-- A transport stub returning a full-length well-framed report (the
address repeated to the requested length). -/
def replicateRaw : Nat → Nat → Nat → List Nat := fun _ a l => List.replicate l a

/-- A transport stub for which register 24 always reads empty while every
other register reads the well-framed report `[a, 5, 0]`. -/
def rawC1 : Nat → Nat → Nat → List Nat :=
  fun _ a _ => if a = 24 then [] else [a, 5, 0]

/-- Claim C1 (counterexample): on a nested category whose first
subcategory always reads empty while the second reads a valid frame, the
snapshot holds the category as an empty mapping — the second subcategory
is absent even though its read would have succeeded (second conjunct),
because the one `try` block around the whole subcategory loop aborts the
remaining subcategories on the first failure.  This refutes the claim
that each subcategory is attempted independently. -/
theorem C1_counterexample :
    get rawC1
        [("input", Node.branch
           [("voltage", inputVoltage), ("frequency", inputFrequency)])]
      = Except.ok [("input", CatValue.nested [])]
    ∧ (readCore rawC1 inputFrequency 3 4).1
      = Except.ok (Value.float (Rat.divInt 1 2)) := by
  constructor
  · decide
  · decide

/-- Claim C2 (counterexample): a non-empty, well-framed but short report
makes the decoder fail with `IndexError`, which is not of the `IOError`
class caught for per-descriptor failures, and therefore escapes
`Battery.get` instead of being handled per-descriptor. -/
theorem C2_counterexample :
    handleReport configVoltage [48] = Except.error PyErr.indexError
    ∧ isIOError PyErr.indexError = false
    ∧ isIOError PyErr.noData = true
    ∧ get pyEchoRaw [("health", Node.leaf healthDesc)]
      = Except.error PyErr.indexError := by
  refine ⟨by decide, rfl, rfl, by decide⟩

/-- Claim C3 (counterexample): with a transport returning truncated
(one-byte, well-framed) reports, `Battery.get` on the driver's schema does
not return a snapshot at all: the per-descriptor `IndexError` escapes the
builder. -/
theorem C3_counterexample :
    get pyEchoRaw structureMap = Except.error PyErr.indexError := by
  decide

/-- A bitfield descriptor declaring nine flag names. -/
def nineFlags : Descriptor :=
  ⟨50, 1, Format.b, ["a", "b", "c", "d", "e", "f", "g", "h", "i"]⟩

/-- Claim C6 (counterexample): against a bitfield descriptor declaring
nine flag names, decoding the payload byte `255` yields only eight
entries — the ninth flag name gets no boolean, refuting "one boolean per
flag name". -/
theorem C6_counterexample :
    handleReport nineFlags [50, 255]
      = Except.ok (Value.bits
          [("a", true), ("b", true), ("c", true), ("d", true),
           ("e", true), ("f", true), ("g", true), ("h", true)])
    ∧ ([("a", true), ("b", true), ("c", true), ("d", true),
        ("e", true), ("f", true), ("g", true), ("h", true)]
         : List (String × Bool)).length ≠ nineFlags.keys.length := by
  refine ⟨by decide, by decide⟩

/-- Claim C4: `_read` is called with `retries=3`; an empty report is
retried with a fresh transport call while retries remain.  If the first
four calls (the attempts actually made) all return empty, the read fails
with the no-data `IOError` after exactly 4 transport calls; if the first
three return empty and the fourth carries a frame that validates and
decodes, the read succeeds after exactly 4 transport calls. -/
theorem C4_retry_bound (raw : Nat → Nat → Nat → List Nat) (opts : Descriptor)
    (v : Value) :
    ((∀ j, j < 4 → raw j opts.address (opts.bytes + 1) = []) →
      readCore raw opts 3 0 = (Except.error PyErr.noData, 4))
    ∧ ((∀ j, j < 3 → raw j opts.address (opts.bytes + 1) = []) →
      handleReport opts (raw 3 opts.address (opts.bytes + 1)) = Except.ok v →
      readCore raw opts 3 0 = (Except.ok v, 4)) := by
  constructor
  · intro h
    have h0 := h 0 (by omega)
    have h1 := h 1 (by omega)
    have h2 := h 2 (by omega)
    have h3 := h 3 (by omega)
    simp [readCore, h0, h1, h2, h3]
  · intro h hv
    have h0 := h 0 (by omega)
    have h1 := h 1 (by omega)
    have h2 := h 2 (by omega)
    have hne : raw 3 opts.address (opts.bytes + 1) ≠ [] := by
      intro he
      rw [he] at hv
      simp [handleReport] at hv
    simp [readCore, h0, h1, h2, List.isEmpty_iff, hne, hv]

/-- Claim C4 (witness): with a stub returning empty three times and the
frame `[48, 7]` on the fourth call, reading the one-byte integer register
48 yields `7` after four transport calls; with an always-empty stub it
fails with the no-data error after four transport calls. -/
theorem C4_witness :
    readCore (fun j _ _ => if j < 3 then [] else [48, 7]) configVoltage 3 0
      = (Except.ok (Value.int 7), 4)
    ∧ readCore (fun _ _ _ => []) configVoltage 3 0
      = (Except.error PyErr.noData, 4) := by
  constructor
  · exact (C4_retry_bound (fun j _ _ => if j < 3 then [] else [48, 7])
      configVoltage (Value.int 7)).2 (fun j hj => by
        simp [show j < 3 from hj]) (by decide)
  · exact (C4_retry_bound (fun _ _ _ => []) configVoltage (Value.int 7)).1
      (fun j _ => rfl)

/-- Claim C5: a non-empty first report whose byte 0 differs from the
descriptor's address makes the read fail with the unexpected-data
`IOError`, whatever the rest of the payload holds, after exactly one
transport call — framing mismatches are never retried. -/
theorem C5_framing_no_retry (raw : Nat → Nat → Nat → List Nat)
    (opts : Descriptor) (b0 : Nat)
    (H0 : (raw 0 opts.address (opts.bytes + 1)).head? = some b0)
    (Hne : b0 ≠ opts.address) :
    readCore raw opts 3 0 = (Except.error PyErr.unexpectedData, 1) := by
  rcases hr : raw 0 opts.address (opts.bytes + 1) with _ | ⟨x, t⟩
  · rw [hr] at H0
    simp at H0
  · rw [hr] at H0
    simp at H0
    subst H0
    simp [readCore, hr, handleReport, Ne.symm Hne]

/-- Claim C5 (witness): reading register 48 from a transport answering
with the mis-framed report `[49, 200, 200]` fails with the
unexpected-data error after a single call. -/
theorem C5_witness :
    readCore (fun _ _ _ => [49, 200, 200]) configVoltage 3 0
      = (Except.error PyErr.unexpectedData, 1) :=
  C5_framing_no_retry (fun _ _ _ => [49, 200, 200]) configVoltage 49 rfl
    (by decide)

/-- Claim C7: on a well-framed report of sufficient length, a one-byte
`'i'` descriptor decodes to byte 1; a two-byte `'i'` descriptor decodes to
`byte[1] + (byte[2] << 8)`, at most 65535 for byte-valued entries; an
`'f'` descriptor decodes to that 16-bit value divided by 10, a
non-negative rational; and the buffer `[0x30, 0x05, 0x00]` against an
`'f'` descriptor at address `0x30` with two bytes decodes to `0.5`. -/
theorem C7_numeric_decoding (opts : Descriptor) (a b1 b2 : Nat)
    (rest : List Nat) (Hb1 : b1 < 256) (Hb2 : b2 < 256) :
    (opts.format = Format.i → opts.bytes = 1 → opts.address = a →
      handleReport opts (a :: b1 :: rest) = Except.ok (Value.int b1)
        ∧ b1 ≤ 255)
    ∧ (opts.format = Format.i → opts.bytes = 2 → opts.address = a →
      handleReport opts (a :: b1 :: b2 :: rest)
          = Except.ok (Value.int (b1 + (b2 <<< 8)))
        ∧ b1 + (b2 <<< 8) ≤ 65535)
    ∧ (opts.format = Format.f → opts.address = a →
      handleReport opts (a :: b1 :: b2 :: rest)
          = Except.ok (Value.float
              (Rat.divInt ((b1 + (b2 <<< 8) : Nat) : Int) 10))
        ∧ Rat.divInt ((b1 + (b2 <<< 8) : Nat) : Int) 10
            = ((b1 + (b2 <<< 8) : Nat) : Rat) / 10
        ∧ 0 ≤ Rat.divInt ((b1 + (b2 <<< 8) : Nat) : Int) 10)
    ∧ handleReport ⟨0x30, 2, Format.f, []⟩ [0x30, 0x05, 0x00]
        = Except.ok (Value.float ((1 : Rat) / 2)) := by
  refine ⟨?_, ?_, ?_, ?_⟩
  · intro hf hb ha
    subst ha
    refine ⟨?_, by omega⟩
    simp [handleReport, decodeReport, pyIndex, hf, hb]
    rfl
  · intro hf hb ha
    subst ha
    constructor
    · simp [handleReport, decodeReport, pyIndex, hf, hb, Nat.add_comm]
      rfl
    · have : b2 <<< 8 = b2 * 256 := by
        simp [Nat.shiftLeft_eq]
      omega
  · intro hf ha
    subst ha
    refine ⟨?_, ?_, ?_⟩
    · simp [handleReport, decodeReport, pyIndex, hf, Nat.add_comm]
      rfl
    · rw [Rat.divInt_eq_div]
      norm_num
    · rw [Rat.divInt_eq_div]
      positivity
  · have h : handleReport ⟨0x30, 2, Format.f, []⟩ [0x30, 0x05, 0x00]
        = Except.ok (Value.float
            (Rat.divInt ((((0 <<< 8) + 5 : Nat)) : Int) 10)) := rfl
    rw [h]
    have h5 : ((0 <<< 8) + 5 : Nat) = 5 := by decide
    rw [h5, Rat.divInt_eq_div]
    norm_num

/-- Claim C7 (witness): reading the example descriptor and the two
integer forms at concrete byte values through the theorem. -/
theorem C7_witness :
    handleReport configVoltage [48, 7, 0] = Except.ok (Value.int 7)
    ∧ handleReport configPower [3, 1, 2]
        = Except.ok (Value.int (1 + (2 <<< 8)))
    ∧ handleReport inputVoltage [24, 5, 0]
        = Except.ok (Value.float (Rat.divInt ((5 + (0 <<< 8) : Nat) : Int) 10)) := by
  refine ⟨?_, ?_, ?_⟩
  · exact ((C7_numeric_decoding configVoltage 48 7 0 [0] (by omega)
      (by omega)).1 rfl rfl rfl).1
  · exact ((C7_numeric_decoding configPower 3 1 2 [] (by omega)
      (by omega)).2.1 rfl rfl rfl).1
  · exact ((C7_numeric_decoding inputVoltage 24 5 0 [] (by omega)
      (by omega)).2.2.1 rfl rfl).1

set_option maxRecDepth 4096 in
/-- For byte values the fuel-computed bit length is at most 8. -/
theorem bitLenFuel_le_eight : ∀ b, b < 256 → bitLenFuel b b ≤ 8 := by decide

/-- A byte formats to exactly 8 binary digits. -/
theorem pyBinLen_byte (b : Nat) (hb : b < 256) : pyBinLen b = 8 := by
  have h := bitLenFuel_le_eight b hb
  simp [pyBinLen, Nat.max_eq_left h]

/-- The reversed bit string of a byte has exactly 8 positions. -/
theorem pyBits_length (b : Nat) (hb : b < 256) : (pyBits b).length = 8 := by
  simp [pyBits, pyBinLen_byte b hb]

/-- Position `i < 8` of a byte's reversed bit string is bit `i`. -/
theorem pyBits_get (b i : Nat) (hb : b < 256) (hi : i < 8) :
    (pyBits b)[i]? = some (b.testBit i) := by
  simp [pyBits, pyBinLen_byte b hb, List.getElem?_range hi]

/-- Claim C6 (amended): on a well-framed report of sufficient length with
payload byte `b`, a bitfield descriptor decodes to the zip of its flag
names with the reversed bit string of `b`: the entry at each position
`i < 8` pairs the `i`-th flag name with bit `i` of `b` (0 = least
significant), bits beyond the number of flag names are ignored, and the
mapping has one boolean for each of the first `min(len(flag_names), 8)`
flag names in schema order — flag names beyond the eighth get no entry. -/
theorem C6_bitfield_decoding (opts : Descriptor) (b : Nat) (rest : List Nat)
    (Hf : opts.format = Format.b) (Hb : b < 256) :
    handleReport opts (opts.address :: b :: rest)
      = Except.ok (Value.bits (opts.keys.zip (pyBits b)))
    ∧ (∀ i k, opts.keys[i]? = some k → i < 8 →
        (opts.keys.zip (pyBits b))[i]? = some (k, b.testBit i))
    ∧ (opts.keys.zip (pyBits b)).length = min opts.keys.length 8 := by
  refine ⟨?_, ?_, ?_⟩
  · simp [handleReport, decodeReport, pyIndex, Hf]
    rfl
  · intro i k hk hi
    rw [List.getElem?_zip_eq_some]
    exact ⟨hk, pyBits_get b i Hb hi⟩
  · rw [List.length_zip, pyBits_length b Hb]

/-- Claim C6 (witness): the payload byte `0b00000011` against the status
register's eight flag names yields `true` for the first two flags and
`false` for the rest, in schema order. -/
theorem C6_witness :
    handleReport statusDesc [50, 3]
      = Except.ok (Value.bits
          [("shutdown imminent", true), ("ac present", true),
           ("charging", false), ("discharging", false),
           ("needs replacement", false), ("below remaining capacity", false),
           ("fully charged", false), ("fully discharged", false)]) :=
  Eq.trans ((C6_bitfield_decoding statusDesc 3 [] rfl (by decide)).1)
    (by decide)

/-- Claim C10: for a bitfield descriptor and a byte payload, the decoded
mapping has exactly `min(len(flag_names), 8)` entries: the byte expands to
exactly 8 bit positions, so flag names beyond the eighth get no entry
(positions at index 8 and beyond are absent), and with fewer than 8 names
the excess high bits are dropped by the zip. -/
theorem C10_bitfield_entry_count (opts : Descriptor) (b : Nat)
    (rest : List Nat) (Hf : opts.format = Format.b) (Hb : b < 256) :
    handleReport opts (opts.address :: b :: rest)
      = Except.ok (Value.bits (opts.keys.zip (pyBits b)))
    ∧ (pyBits b).length = 8
    ∧ (opts.keys.zip (pyBits b)).length = min opts.keys.length 8
    ∧ (∀ i, 8 ≤ i → (opts.keys.zip (pyBits b))[i]? = Option.none) := by
  refine ⟨?_, pyBits_length b Hb, ?_, ?_⟩
  · simp [handleReport, decodeReport, pyIndex, Hf]
    rfl
  · rw [List.length_zip, pyBits_length b Hb]
  · intro i hi
    rw [List.getElem?_eq_none_iff, List.length_zip, pyBits_length b Hb]
    omega

/-- Claim C10 (witness): nine declared flag names against payload byte 255
still give a mapping of `min 9 8 = 8` entries, with no ninth entry. -/
theorem C10_witness :
    (nineFlags.keys.zip (pyBits 255)).length = min nineFlags.keys.length 8
    ∧ (nineFlags.keys.zip (pyBits 255))[8]? = Option.none := by
  have h := C10_bitfield_entry_count nineFlags 255 [] rfl (by decide)
  exact ⟨h.2.2.1, h.2.2.2 8 (by omega)⟩

/-- The four descriptor shapes allowed by the data-model invariant. -/
theorem wf_cases (opts : Descriptor) (Hwf : wellFormedDesc opts = true) :
    (opts.format = Format.b ∧ opts.bytes = 1)
    ∨ (opts.format = Format.i ∧ opts.bytes = 1)
    ∨ (opts.format = Format.i ∧ opts.bytes = 2)
    ∨ (opts.format = Format.f ∧ opts.bytes = 2) := by
  simp [wellFormedDesc] at Hwf
  tauto

/-- An out-of-range subscript raises `IndexError`. -/
theorem pyIndex_err (report : List Nat) (i : Nat) (h : report.length ≤ i) :
    pyIndex report i = Except.error PyErr.indexError := by
  unfold pyIndex
  rcases hg : report.get? i with _ | b
  · rfl
  · rw [List.get?_eq_getElem?] at hg
    rw [List.getElem?_eq_none_iff.mpr h] at hg
    cases hg

/-- An in-range subscript succeeds. -/
theorem pyIndex_exists_ok (report : List Nat) (i : Nat)
    (h : i < report.length) : ∃ b, pyIndex report i = Except.ok b := by
  unfold pyIndex
  rcases hg : report.get? i with _ | b
  · rw [List.get?_eq_getElem?, List.getElem?_eq_none_iff] at hg
    omega
  · exact ⟨b, rfl⟩

/-- Claim C2 (amended): a non-empty, well-framed report shorter than
`byte_count + 1` makes decoding fail with an out-of-range subscript error
(`IndexError`), which is NOT of the `IOError` class that the snapshot
builder catches for per-descriptor failures — there is no short-read
check in `_read`, so this failure escapes `Battery.get` instead of being
handled like the other per-descriptor failures. -/
theorem C2_short_read_uncaught (opts : Descriptor) (report : List Nat)
    (Hwf : wellFormedDesc opts = true)
    (Hhead : report.head? = some opts.address)
    (Hshort : report.length < opts.bytes + 1) :
    handleReport opts report = Except.error PyErr.indexError
    ∧ isIOError PyErr.indexError = false := by
  refine ⟨?_, rfl⟩
  rcases report with _ | ⟨b0, t⟩
  · simp at Hhead
  · have hb0 : b0 = opts.address := by simpa using Hhead
    subst hb0
    simp only [handleReport, List.head?_cons]
    rw [if_neg (by simp)]
    simp only [List.length_cons] at Hshort
    rcases wf_cases opts Hwf with ⟨hf, hb⟩ | ⟨hf, hb⟩ | ⟨hf, hb⟩ | ⟨hf, hb⟩
    · have h1 : pyIndex (opts.address :: t) 1 = Except.error PyErr.indexError :=
        pyIndex_err _ _ (by simp only [List.length_cons]; omega)
      simp [decodeReport, hf, h1]
      rfl
    · have h1 : pyIndex (opts.address :: t) 1 = Except.error PyErr.indexError :=
        pyIndex_err _ _ (by simp only [List.length_cons]; omega)
      simp [decodeReport, hf, hb, h1]
      rfl
    · have h2 : pyIndex (opts.address :: t) 2 = Except.error PyErr.indexError :=
        pyIndex_err _ _ (by simp only [List.length_cons]; omega)
      simp [decodeReport, hf, hb, h2]
      rfl
    · have h2 : pyIndex (opts.address :: t) 2 = Except.error PyErr.indexError :=
        pyIndex_err _ _ (by simp only [List.length_cons]; omega)
      simp [decodeReport, hf, hb, h2]
      rfl

/-- Claim C2 (witness): the one-byte report `[48]` against the one-byte
integer descriptor at address 48 is short; decoding it gives the uncaught
`IndexError`. -/
theorem C2_witness :
    handleReport configVoltage [48] = Except.error PyErr.indexError
    ∧ isIOError PyErr.indexError = false :=
  C2_short_read_uncaught configVoltage [48] (by decide) rfl (by decide)

/-- The snapshot entry a flat category contributes, given the read's
uniform outcome: its decoded value on success, nothing on failure. -/
def flatOutcome (res : String → Except PyErr Value) (p : String × Descriptor) :
    Option (String × CatValue) :=
  match res p.1 with
  | Except.ok v => some (p.1, CatValue.flat v)
  | Except.error _ => Option.none

/-- Snapshot assembly over flat categories whose reads have uniform,
`IOError`-class-failing outcomes: each category contributes exactly its
`flatOutcome`, from any starting call index. -/
theorem getAux_flat (raw : Nat → Nat → Nat → List Nat)
    (res : String → Except PyErr Value) :
    ∀ (cats : List (String × Descriptor)) (k : Nat),
      (∀ p ∈ cats, ∀ j, (readCore raw p.2 3 j).1 = res p.1) →
      (∀ p ∈ cats, ∀ e, res p.1 = Except.error e → isIOError e = true) →
      ∃ k', getAux raw (cats.map (fun p => (p.1, Node.leaf p.2))) k
        = Except.ok (cats.filterMap (flatOutcome res), k') := by
  intro cats
  induction cats with
  | nil => intro k _ _; exact ⟨k, rfl⟩
  | cons p cats ih =>
    intro k Hres Hio
    obtain ⟨name, d⟩ := p
    have hr : (readCore raw d 3 k).1 = res name := Hres (name, d) (by simp) k
    rcases hrw : readCore raw d 3 k with ⟨r, k1⟩
    have hr2 : r = res name := by rw [hrw] at hr; exact hr
    subst hr2
    obtain ⟨k', hrest⟩ := ih k1
      (fun q hq j => Hres q (by simp [hq]) j)
      (fun q hq e he => Hio q (by simp [hq]) e he)
    rcases hres : res name with e | v
    · have hioe : isIOError e = true := Hio (name, d) (by simp) e hres
      refine ⟨k', ?_⟩
      rw [hres] at hrw
      simp only [List.map_cons, getAux, hrw, hioe, if_pos]
      rw [hrest]
      simp [List.filterMap_cons, flatOutcome, hres]
    · refine ⟨k', ?_⟩
      rw [hres] at hrw
      simp only [List.map_cons, getAux, hrw]
      rw [hrest]
      simp [List.filterMap_cons, flatOutcome, hres]

/-- Claim C8: over a schema of flat categories, when every category's read
has a uniform outcome (always succeeds with some value, or always fails
with an `IOError`-class failure), the snapshot holds exactly the
succeeding categories with their decoded values; each failing category is
entirely absent from the output mapping. -/
theorem C8_partial_failure_isolation (raw : Nat → Nat → Nat → List Nat)
    (cats : List (String × Descriptor)) (res : String → Except PyErr Value)
    (Hres : ∀ p ∈ cats, ∀ j, (readCore raw p.2 3 j).1 = res p.1)
    (Hio : ∀ p ∈ cats, ∀ e, res p.1 = Except.error e → isIOError e = true) :
    get raw (cats.map (fun p => (p.1, Node.leaf p.2)))
      = Except.ok (cats.filterMap (flatOutcome res)) := by
  obtain ⟨k', h⟩ := getAux_flat raw res cats 0 Hres Hio
  show (getAux raw (cats.map (fun p => (p.1, Node.leaf p.2))) 0).map Prod.fst
    = Except.ok (cats.filterMap (flatOutcome res))
  rw [h]
  rfl

/-- A transport stub for which register 2 always reads empty and every
other register reads the well-framed report `[a, 5, 0]`. -/
def rawC8 : Nat → Nat → Nat → List Nat :=
  fun _ a _ => if a = 2 then [] else [a, 5, 0]

/-- The uniform read outcomes under `rawC8` for the three categories of
the C8 witness schema. -/
def resC8 : String → Except PyErr Value :=
  fun s => if s = "c2" then Except.error PyErr.noData
           else Except.ok (Value.int 5)

/-- Claim C8 (witness): three flat categories where the middle one always
fails with `NoDataError`; the snapshot holds exactly categories 1 and 3,
with category 2 entirely absent. -/
theorem C8_witness :
    get rawC8
        [("c1", Node.leaf configVoltage), ("c2", Node.leaf configFrequency),
         ("c3", Node.leaf configPower)]
      = Except.ok
          [("c1", CatValue.flat (Value.int 5)),
           ("c3", CatValue.flat (Value.int 5))] := by
  have h := C8_partial_failure_isolation rawC8
    [("c1", configVoltage), ("c2", configFrequency), ("c3", configPower)]
    resC8
    (by
      intro p hp j
      fin_cases hp <;>
        simp [readCore, rawC8, resC8, handleReport, decodeReport, pyIndex,
          configVoltage, configFrequency, configPower] <;> rfl)
    (by
      intro p hp e he
      fin_cases hp
      · simp [resC8] at he
      · simp [resC8] at he
        subst he
        rfl
      · simp [resC8] at he)
  exact h.trans (by decide)


/-- With a deterministic transport, the outcome of `_read` (though not
the call counter) is independent of the starting call index. -/
theorem readCore_fst_det (raw : Nat → Nat → Nat → List Nat)
    (Hdet : ∀ i j a l, raw i a l = raw j a l) (opts : Descriptor) :
    ∀ (r k1 k2 : Nat),
      (readCore raw opts r k1).1 = (readCore raw opts r k2).1 := by
  intro r
  induction r with
  | zero =>
    intro k1 k2
    simp only [readCore]
    rw [Hdet k1 k2 opts.address (opts.bytes + 1)]
    split <;> rfl
  | succ r ih =>
    intro k1 k2
    simp only [readCore]
    rw [Hdet k1 k2 opts.address (opts.bytes + 1)]
    split
    · exact ih (k1 + 1) (k2 + 1)
    · rfl

/-- A subcategory-loop outcome with the call counter forgotten: the
accumulated values plus whether the loop finished, or the escaping
error. -/
def SubResult.strip : SubResult → Except PyErr (List (String × Value) × Bool)
  | SubResult.done vals _ => Except.ok (vals, true)
  | SubResult.caught vals _ => Except.ok (vals, false)
  | SubResult.crashed e _ => Except.error e

/-- The call counter a subcategory-loop outcome carries. -/
def SubResult.counter : SubResult → Nat
  | SubResult.done _ k => k
  | SubResult.caught _ k => k
  | SubResult.crashed _ k => k

/-- Unfolding of the subcategory loop on a cons cell, phrased through the
projections of the `_read` outcome. -/
theorem runSubs_cons_eq (raw : Nat → Nat → Nat → List Nat) (name : String)
    (opts : Descriptor) (rest : List (String × Descriptor)) (k : Nat) :
    runSubs raw ((name, opts) :: rest) k =
      match (readCore raw opts 3 k).1 with
      | Except.ok v =>
        match runSubs raw rest (readCore raw opts 3 k).2 with
        | SubResult.done vals k2 => SubResult.done ((name, v) :: vals) k2
        | SubResult.caught vals k2 => SubResult.caught ((name, v) :: vals) k2
        | SubResult.crashed e k2 => SubResult.crashed e k2
      | Except.error e =>
        if isIOError e then SubResult.caught [] (readCore raw opts 3 k).2
        else SubResult.crashed e (readCore raw opts 3 k).2 := by
  simp only [runSubs]
  cases h : readCore raw opts 3 k with
  | mk r k1 => cases r <;> rfl

/-- Appending one read value in front preserves equality of stripped
subcategory-loop outcomes. -/
theorem strip_cons_eq (name : String) (v : Value) (x y : SubResult)
    (h : x.strip = y.strip) :
    (match x with
     | SubResult.done vals k2 => SubResult.done ((name, v) :: vals) k2
     | SubResult.caught vals k2 => SubResult.caught ((name, v) :: vals) k2
     | SubResult.crashed e k2 => SubResult.crashed e k2).strip
    = (match y with
       | SubResult.done vals k2 => SubResult.done ((name, v) :: vals) k2
       | SubResult.caught vals k2 => SubResult.caught ((name, v) :: vals) k2
       | SubResult.crashed e k2 => SubResult.crashed e k2).strip := by
  cases x <;> cases y <;> simp [SubResult.strip] at h ⊢ <;> simp [h]

/-- With a deterministic transport, the subcategory loop's outcome is
independent of the starting call index. -/
theorem runSubs_strip_det (raw : Nat → Nat → Nat → List Nat)
    (Hdet : ∀ i j a l, raw i a l = raw j a l) :
    ∀ (subs : List (String × Descriptor)) (k1 k2 : Nat),
      (runSubs raw subs k1).strip = (runSubs raw subs k2).strip := by
  intro subs
  induction subs with
  | nil => intro k1 k2; rfl
  | cons p rest ih =>
    intro k1 k2
    obtain ⟨name, opts⟩ := p
    rw [runSubs_cons_eq, runSubs_cons_eq]
    rw [readCore_fst_det raw Hdet opts 3 k1 k2]
    cases hv : (readCore raw opts 3 k2).1 with
    | error e =>
      by_cases hio : isIOError e = true
      · simp [hio, SubResult.strip]
      · simp [Bool.not_eq_true] at hio
        simp [hio, SubResult.strip]
    | ok v =>
      exact strip_cons_eq name v _ _
        (ih (readCore raw opts 3 k1).2 (readCore raw opts 3 k2).2)

/-- Unfolding of the category loop on a flat category, phrased through
the projections of the `_read` outcome. -/
theorem getAux_cons_leaf_eq (raw : Nat → Nat → Nat → List Nat)
    (name : String) (opts : Descriptor) (rest : List (String × Node))
    (k : Nat) :
    getAux raw ((name, Node.leaf opts) :: rest) k =
      match (readCore raw opts 3 k).1 with
      | Except.ok v =>
        match getAux raw rest (readCore raw opts 3 k).2 with
        | Except.ok (tl, k2) => Except.ok ((name, CatValue.flat v) :: tl, k2)
        | Except.error e => Except.error e
      | Except.error e =>
        if isIOError e then getAux raw rest (readCore raw opts 3 k).2
        else Except.error e := by
  simp only [getAux]
  cases h : readCore raw opts 3 k with
  | mk r k1 => cases r <;> rfl

/-- Unfolding of the category loop on a nested category, phrased through
the stripped outcome and counter of the subcategory loop. -/
theorem getAux_cons_branch_eq (raw : Nat → Nat → Nat → List Nat)
    (name : String) (subs : List (String × Descriptor))
    (rest : List (String × Node)) (k : Nat) :
    getAux raw ((name, Node.branch subs) :: rest) k =
      match (runSubs raw subs k).strip with
      | Except.ok (vals, _) =>
        match getAux raw rest (runSubs raw subs k).counter with
        | Except.ok (tl, k2) => Except.ok ((name, CatValue.nested vals) :: tl, k2)
        | Except.error e => Except.error e
      | Except.error e => Except.error e := by
  simp only [getAux]
  cases h : runSubs raw subs k <;> rfl

/-- Prepending one category entry preserves equality of counter-forgetting
snapshot projections. -/
theorem mapfst_cons_eq (name : String) (cv : CatValue)
    (x y : Except PyErr (List (String × CatValue) × Nat))
    (h : x.map Prod.fst = y.map Prod.fst) :
    (match x with
     | Except.ok (tl, k2) => Except.ok ((name, cv) :: tl, k2)
     | Except.error e => Except.error e).map Prod.fst
    = (match y with
       | Except.ok (tl, k2) => Except.ok ((name, cv) :: tl, k2)
       | Except.error e => Except.error e).map Prod.fst := by
  cases x with
  | error e =>
    cases y with
    | error e2 => simpa [Except.map] using h
    | ok p => simp [Except.map] at h
  | ok p =>
    obtain ⟨tl, kC⟩ := p
    cases y with
    | error e2 => simp [Except.map] at h
    | ok p2 =>
      obtain ⟨tl2, kD⟩ := p2
      simp [Except.map] at h ⊢
      simp [h]

/-- With a deterministic transport, the snapshot built from any starting
call index is the same. -/
theorem getFrom_det (raw : Nat → Nat → Nat → List Nat)
    (Hdet : ∀ i j a l, raw i a l = raw j a l) :
    ∀ (schema : List (String × Node)) (k1 k2 : Nat),
      getFrom raw schema k1 = getFrom raw schema k2 := by
  intro schema
  induction schema with
  | nil => intro k1 k2; rfl
  | cons p rest ih =>
    intro k1 k2
    obtain ⟨name, node⟩ := p
    cases node with
    | leaf opts =>
      show (getAux raw ((name, Node.leaf opts) :: rest) k1).map Prod.fst
        = (getAux raw ((name, Node.leaf opts) :: rest) k2).map Prod.fst
      rw [getAux_cons_leaf_eq, getAux_cons_leaf_eq]
      rw [readCore_fst_det raw Hdet opts 3 k1 k2]
      cases hv : (readCore raw opts 3 k2).1 with
      | error e =>
        by_cases hio : isIOError e = true
        · simpa [hio] using
            ih (readCore raw opts 3 k1).2 (readCore raw opts 3 k2).2
        · simp [Bool.not_eq_true] at hio
          simp [hio]
      | ok v =>
        exact mapfst_cons_eq name (CatValue.flat v) _ _
          (ih (readCore raw opts 3 k1).2 (readCore raw opts 3 k2).2)
    | branch subs =>
      show (getAux raw ((name, Node.branch subs) :: rest) k1).map Prod.fst
        = (getAux raw ((name, Node.branch subs) :: rest) k2).map Prod.fst
      rw [getAux_cons_branch_eq, getAux_cons_branch_eq]
      rw [runSubs_strip_det raw Hdet subs k1 k2]
      cases hv : (runSubs raw subs k2).strip with
      | error e => rfl
      | ok p =>
        obtain ⟨vals, flag⟩ := p
        exact mapfst_cons_eq name (CatValue.nested vals) _ _
          (ih (runSubs raw subs k1).counter (runSubs raw subs k2).counter)

/-- Claim C9: with a deterministic transport (same response for the same
address and length on every call), snapshot construction from any call
index yields `Battery.get()`'s snapshot: two successive `get` calls give
identical output, the builder accumulating no state between calls. -/
theorem C9_idempotent (raw : Nat → Nat → Nat → List Nat)
    (schema : List (String × Node))
    (Hdet : ∀ i j a l, raw i a l = raw j a l) (k : Nat) :
    getFrom raw schema k = get raw schema :=
  getFrom_det raw Hdet schema k 0

/-- Claim C9 (witness): under the deterministic full-length transport
stub, the snapshot built after 37 earlier transport calls equals the
first snapshot of the driver's schema. -/
theorem C9_witness :
    getFrom replicateRaw structureMap 37 = get replicateRaw structureMap :=
  C9_idempotent replicateRaw structureMap (fun _ _ _ _ => rfl) 37

/-- When a prefix of the subcategory list completes successfully, the
loop over the whole list continues from the prefix's end counter, with
the prefix's values in front. -/
theorem runSubs_append_done (raw : Nat → Nat → Nat → List Nat)
    (rest : List (String × Descriptor)) :
    ∀ (pre : List (String × Descriptor)) (k : Nat)
      (vals : List (String × Value)) (k' : Nat),
      runSubs raw pre k = SubResult.done vals k' →
      runSubs raw (pre ++ rest) k =
        (match runSubs raw rest k' with
         | SubResult.done vals2 k2 => SubResult.done (vals ++ vals2) k2
         | SubResult.caught vals2 k2 => SubResult.caught (vals ++ vals2) k2
         | SubResult.crashed e k2 => SubResult.crashed e k2) := by
  intro pre
  induction pre with
  | nil =>
    intro k vals k' h
    simp only [runSubs] at h
    injection h with h1 h2
    subst h1
    subst h2
    simp only [List.nil_append]
    cases hr : runSubs raw rest k <;> simp
  | cons q pre ih =>
    intro k vals k' h
    obtain ⟨name, opts⟩ := q
    rw [runSubs_cons_eq] at h
    rw [List.cons_append, runSubs_cons_eq]
    cases hv : (readCore raw opts 3 k).1 with
    | error e =>
      simp only [hv] at h
      by_cases hio : isIOError e = true
      · rw [if_pos hio] at h; cases h
      · rw [if_neg hio] at h; cases h
    | ok v =>
      simp only [hv] at h
      simp only [hv]
      cases hp : runSubs raw pre (readCore raw opts 3 k).2 with
      | done vals2 k2 =>
        simp only [hp] at h
        injection h with h1 h2
        subst h1
        subst h2
        rw [ih (readCore raw opts 3 k).2 vals2 k2 hp]
        cases hr : runSubs raw rest k2 <;> simp
      | caught vals2 k2 => simp only [hp] at h; cases h
      | crashed e2 k2 => simp only [hp] at h; cases h

/-- Claim C1 (amended): the snapshot builder attempts a nested category's
subcategories in order inside one `try` block; the first subcategory
failure (of the caught `IOError` class) aborts the remaining
subcategories of that category — they are never attempted, whatever they
are — while the successfully read prefix keeps its values, and the
category itself still appears in the output (as an empty mapping when the
first subcategory fails). -/
theorem C1_first_failure_aborts (raw : Nat → Nat → Nat → List Nat)
    (cat s : String) (pre post : List (String × Descriptor)) (d : Descriptor)
    (vals : List (String × Value)) (k1 : Nat) (e : PyErr)
    (Hpre : runSubs raw pre 0 = SubResult.done vals k1)
    (Hfail : (readCore raw d 3 k1).1 = Except.error e)
    (Hio : isIOError e = true) :
    get raw [(cat, Node.branch (pre ++ (s, d) :: post))]
      = Except.ok [(cat, CatValue.nested vals)] := by
  have happ := runSubs_append_done raw ((s, d) :: post) pre 0 vals k1 Hpre
  have hsub : runSubs raw ((s, d) :: post) k1
      = SubResult.caught [] (readCore raw d 3 k1).2 := by
    rw [runSubs_cons_eq]
    simp only [Hfail, Hio, if_pos]
  rw [hsub] at happ
  show (getAux raw [(cat, Node.branch (pre ++ (s, d) :: post))] 0).map Prod.fst
    = Except.ok [(cat, CatValue.nested vals)]
  rw [getAux_cons_branch_eq]
  simp [happ, SubResult.strip, SubResult.counter, getAux, Except.map]

/-- A transport stub for which register 25 always reads empty and every
other register reads the well-framed report `[a, 5, 0]`. -/
def rawC1w : Nat → Nat → Nat → List Nat :=
  fun _ a _ => if a = 25 then [] else [a, 5, 0]

/-- Claim C1 (witness): in a nested category of three subcategories
where the second always reads empty, the snapshot keeps the first
subcategory's value and the third is never attempted — the category
appears with the prefix only. -/
theorem C1_witness :
    get rawC1w
        [("input", Node.branch
           [("voltage", inputVoltage), ("frequency", inputFrequency),
            ("power", outputPower)])]
      = Except.ok
          [("input", CatValue.nested
             [("voltage", Value.float (Rat.divInt 1 2))])] :=
  C1_first_failure_aborts rawC1w "input" "frequency"
    [("voltage", inputVoltage)] [("power", outputPower)] inputFrequency
    [("voltage", Value.float (Rat.divInt 1 2))] 1 PyErr.noData
    (by decide) (by decide) rfl

/-- For an invariant-respecting descriptor and a report of at least
`byte_count + 1` bytes, the format dispatch always produces a value. -/
theorem decodeReport_ok_of_wf (opts : Descriptor) (report : List Nat)
    (Hwf : wellFormedDesc opts = true)
    (Hlen : opts.bytes + 1 ≤ report.length) :
    ∃ v, decodeReport opts report = Except.ok v := by
  rcases wf_cases opts Hwf with ⟨hf, hb⟩ | ⟨hf, hb⟩ | ⟨hf, hb⟩ | ⟨hf, hb⟩
  · obtain ⟨b1, h1⟩ := pyIndex_exists_ok report 1 (by omega)
    refine ⟨Value.bits (opts.keys.zip (pyBits b1)), ?_⟩
    simp [decodeReport, hf, h1]
    rfl
  · obtain ⟨b1, h1⟩ := pyIndex_exists_ok report 1 (by omega)
    refine ⟨Value.int b1, ?_⟩
    simp [decodeReport, hf, hb, h1]
    rfl
  · obtain ⟨b2, h2⟩ := pyIndex_exists_ok report 2 (by omega)
    obtain ⟨b1, h1⟩ := pyIndex_exists_ok report 1 (by omega)
    refine ⟨Value.int ((b2 <<< 8) + b1), ?_⟩
    simp [decodeReport, hf, hb, h1, h2]
    rfl
  · obtain ⟨b2, h2⟩ := pyIndex_exists_ok report 2 (by omega)
    obtain ⟨b1, h1⟩ := pyIndex_exists_ok report 1 (by omega)
    refine ⟨Value.float (Rat.divInt (((b2 <<< 8) + b1 : Nat) : Int) 10), ?_⟩
    simp [decodeReport, hf, hb, h1, h2]
    rfl

/-- For an invariant-respecting descriptor, any error on a full-length
report is of the caught `IOError` class. -/
theorem handleReport_caught (opts : Descriptor) (report : List Nat)
    (Hwf : wellFormedDesc opts = true)
    (Hlen : opts.bytes + 1 ≤ report.length) :
    ∀ e, handleReport opts report = Except.error e → isIOError e = true := by
  intro e he
  rcases report with _ | ⟨b0, t⟩
  · simp at Hlen
  · simp only [handleReport, List.head?_cons] at he
    by_cases hb0 : opts.address ≠ b0
    · rw [if_pos hb0] at he
      cases he
      rfl
    · rw [if_neg hb0] at he
      obtain ⟨v, hv⟩ := decodeReport_ok_of_wf opts (b0 :: t) Hwf Hlen
      rw [hv] at he
      cases he

/-- For an invariant-respecting descriptor over a transport whose
non-empty responses carry at least the requested length, every `_read`
failure is of the caught `IOError` class. -/
theorem readCore_caught (raw : Nat → Nat → Nat → List Nat)
    (opts : Descriptor) (Hwf : wellFormedDesc opts = true)
    (Hlen : ∀ k a l, raw k a l = [] ∨ l ≤ (raw k a l).length) :
    ∀ (r k : Nat) (e : PyErr),
      (readCore raw opts r k).1 = Except.error e → isIOError e = true := by
  intro r
  induction r with
  | zero =>
    intro k e he
    rcases hrep : raw k opts.address (opts.bytes + 1) with _ | ⟨b0, t⟩
    · simp [readCore, hrep] at he
      subst he
      rfl
    · rcases Hlen k opts.address (opts.bytes + 1) with hnil | hlen
      · rw [hrep] at hnil; cases hnil
      · rw [hrep] at hlen
        simp [readCore, hrep] at he
        exact handleReport_caught opts (b0 :: t) Hwf hlen e he
  | succ r ih =>
    intro k e he
    rcases hrep : raw k opts.address (opts.bytes + 1) with _ | ⟨b0, t⟩
    · simp [readCore, hrep] at he
      exact ih (k + 1) e he
    · rcases Hlen k opts.address (opts.bytes + 1) with hnil | hlen
      · rw [hrep] at hnil; cases hnil
      · rw [hrep] at hlen
        simp [readCore, hrep] at he
        exact handleReport_caught opts (b0 :: t) Hwf hlen e he

/-- Over such a transport the subcategory loop never lets an error
escape: it finishes, or an `IOError` is caught with a partial prefix. -/
theorem runSubs_no_crash (raw : Nat → Nat → Nat → List Nat)
    (Hlen : ∀ k a l, raw k a l = [] ∨ l ≤ (raw k a l).length) :
    ∀ (subs : List (String × Descriptor)),
      (∀ q ∈ subs, wellFormedDesc q.2 = true) →
      ∀ k, ∃ vals k', runSubs raw subs k = SubResult.done vals k'
        ∨ runSubs raw subs k = SubResult.caught vals k' := by
  intro subs
  induction subs with
  | nil => intro _ k; exact ⟨[], k, Or.inl rfl⟩
  | cons q rest ih =>
    intro Hwf k
    obtain ⟨name, opts⟩ := q
    cases hv : (readCore raw opts 3 k).1 with
    | error e =>
      have hio := readCore_caught raw opts (Hwf (name, opts) (by simp))
        Hlen 3 k e hv
      refine ⟨[], (readCore raw opts 3 k).2, Or.inr ?_⟩
      rw [runSubs_cons_eq]
      simp [hv, hio]
    | ok v =>
      obtain ⟨vals, k', hrest⟩ :=
        ih (fun q hq => Hwf q (by simp [hq])) (readCore raw opts 3 k).2
      rcases hrest with hdone | hcaught
      · refine ⟨(name, v) :: vals, k', Or.inl ?_⟩
        rw [runSubs_cons_eq]
        simp [hv, hdone]
      · refine ⟨(name, v) :: vals, k', Or.inr ?_⟩
        rw [runSubs_cons_eq]
        simp [hv, hcaught]

/-- Over such a transport the category loop always returns a snapshot. -/
theorem getAux_ok (raw : Nat → Nat → Nat → List Nat)
    (Hlen : ∀ k a l, raw k a l = [] ∨ l ≤ (raw k a l).length) :
    ∀ (schema : List (String × Node)),
      (∀ p ∈ schema, wellFormedNode p.2 = true) →
      ∀ k, ∃ out k', getAux raw schema k = Except.ok (out, k') := by
  intro schema
  induction schema with
  | nil => intro _ k; exact ⟨[], k, rfl⟩
  | cons p rest ih =>
    intro Hwf k
    obtain ⟨name, node⟩ := p
    cases node with
    | leaf opts =>
      have hwfd : wellFormedDesc opts = true := by
        have h := Hwf (name, Node.leaf opts) (by simp)
        simpa [wellFormedNode] using h
      cases hv : (readCore raw opts 3 k).1 with
      | error e =>
        have hio := readCore_caught raw opts hwfd Hlen 3 k e hv
        obtain ⟨out, k', hrest⟩ :=
          ih (fun q hq => Hwf q (by simp [hq])) (readCore raw opts 3 k).2
        refine ⟨out, k', ?_⟩
        rw [getAux_cons_leaf_eq]
        simp [hv, hio, hrest]
      | ok v =>
        obtain ⟨out, k', hrest⟩ :=
          ih (fun q hq => Hwf q (by simp [hq])) (readCore raw opts 3 k).2
        refine ⟨(name, CatValue.flat v) :: out, k', ?_⟩
        rw [getAux_cons_leaf_eq]
        simp [hv, hrest]
    | branch subs =>
      have hwfs : ∀ q ∈ subs, wellFormedDesc q.2 = true := by
        have h := Hwf (name, Node.branch subs) (by simp)
        simpa [wellFormedNode, List.all_eq_true] using h
      obtain ⟨vals, k1, hsub⟩ := runSubs_no_crash raw Hlen subs hwfs k
      obtain ⟨out, k', hrest⟩ := ih (fun q hq => Hwf q (by simp [hq])) k1
      rcases hsub with hdone | hcaught
      · refine ⟨(name, CatValue.nested vals) :: out, k', ?_⟩
        rw [getAux_cons_branch_eq]
        simp [hdone, SubResult.strip, SubResult.counter, hrest]
      · refine ⟨(name, CatValue.nested vals) :: out, k', ?_⟩
        rw [getAux_cons_branch_eq]
        simp [hcaught, SubResult.strip, SubResult.counter, hrest]

/-- Claim C3 (amended): over a transport whose non-empty responses carry
at least the requested `byte_count + 1` bytes (empty responses allowed at
any time), `Battery.get` on an invariant-respecting schema always returns
a snapshot: every per-descriptor `IOError`-class failure (no data,
framing mismatch) is caught in the builder and becomes silent omission.
(Truncated non-empty responses are excluded: by C2 they raise an
`IndexError` that escapes `get`.) -/
theorem C3_all_io_failures_caught (raw : Nat → Nat → Nat → List Nat)
    (schema : List (String × Node))
    (Hwf : ∀ p ∈ schema, wellFormedNode p.2 = true)
    (Hlen : ∀ k a l, raw k a l = [] ∨ l ≤ (raw k a l).length) :
    ∃ snap, get raw schema = Except.ok snap := by
  obtain ⟨out, k', h⟩ := getAux_ok raw Hlen schema Hwf 0
  refine ⟨out, ?_⟩
  show (getAux raw schema 0).map Prod.fst = Except.ok out
  rw [h]
  rfl

/-- Claim C3 (witness): under the full-length transport stub the driver's
schema always yields a snapshot. -/
theorem C3_witness :
    ∃ snap, get replicateRaw structureMap = Except.ok snap :=
  C3_all_io_failures_caught replicateRaw structureMap (by decide)
    (fun k a l => Or.inr (by simp [replicateRaw]))
